import Mathlib

/-!
Verification development for the approval-gated text-to-SQL workflow of
`app/services/sql_service.py` (multidata-rag-project).

The embedding models Python strings as `List Char` with faithful versions of
the string primitives the source uses (`split`, `strip`, `lower`,
`startswith`, substring containment), the streaming SQL extraction loop
`VannaAgentWrapper._extract_sql_from_agent`, and the stateful approval
workflow of `TextToSQLService` (`generate_sql_for_approval`,
`execute_approved_query`, `get_pending_queries`, `complete_training`).
External effects (the LLM generation call and the SQL execution call) are
passed in as explicit `Except` oracles; the boolean returned alongside the
state by `execute_approved_query` records whether the execution call
(`self.vanna.execute_sql_async`) was made.
-/

namespace RagSql

/-- Python strings, modelled as lists of characters. -/
abbrev Str := List Char

/-- Characters of a Lean string literal, used to write concrete Python strings. -/
def strData (s : String) : Str := s.data

/-- Whitespace characters stripped by Python `str.strip()` (ASCII range). -/
def isPySpace (c : Char) : Bool :=
  c = ' ' || c = '\t' || c = '\n' || c = '\x0d' || Char.ofNat 11 = c || Char.ofNat 12 = c

/-- Leading-whitespace removal, the left half of Python `str.strip()`. -/
def dropLeadWS (s : Str) : Str := s.dropWhile isPySpace

/-- Trailing-whitespace removal, the right half of Python `str.strip()`. -/
def dropTrailWS (s : Str) : Str := (s.reverse.dropWhile isPySpace).reverse

/-- Python `str.strip()`. -/
def pyStrip (s : Str) : Str := dropTrailWS (dropLeadWS s)

/-- Python `str.lower()` (ASCII case folding, which covers the source's use). -/
def pyLower (s : Str) : Str := s.map Char.toLower

/-- Python `needle in hay` substring containment. -/
def occurs (hay needle : Str) : Bool :=
  match hay with
  | [] => needle.isEmpty
  | _ :: t => needle.isPrefixOf hay || occurs t needle

/-- Fuel-indexed worker for Python `str.split(sep)` with a non-empty
separator: leftmost-first, non-overlapping matches. -/
def splitOnAux (sep : Str) : Nat → Str → List Str
  | 0, s => [s]
  | _ + 1, [] => [[]]
  | fuel + 1, a :: rest =>
    if sep.isPrefixOf (a :: rest) = true ∧ sep ≠ [] then
      [] :: splitOnAux sep fuel (List.drop (sep.length - 1) rest)
    else
      match splitOnAux sep fuel rest with
      | [] => [[a]]
      | b :: bs => (a :: b) :: bs

/-- Python `s.split(sep)` for non-empty `sep` (the source always splits on
the three-character fence delimiter). -/
def pySplit (sep s : Str) : List Str := splitOnAux sep s.length s

/-- One streamed UI component, as inspected by `_extract_sql_from_agent`:
`metadata = []` models an absent or falsy `metadata` attribute, and
`content = []` models an absent or falsy `content` attribute. -/
structure RichComponent where
  metadata : List (Str × Str)
  content : Str
deriving DecidableEq

/-- The fence delimiter the source splits content on. -/
def fenceDelim : Str := strData "```"

/-- The case-insensitive marker checked by `if '\x60\x60\x60sql' in content.lower()`. -/
def fenceSqlMarker : Str := strData "```sql"

/-- The metadata key and language tag `'sql'`. -/
def sqlTag : Str := strData "sql"

/-- The `if hasattr(rich_comp, 'metadata') and rich_comp.metadata:` branch of
the extraction loop: a truthy metadata mapping containing the key `'sql'`
overwrites the candidate with its value. -/
def stepMeta (c : RichComponent) (sql : Option Str) : Option Str :=
  if c.metadata = [] then sql
  else
    match c.metadata.lookup sqlTag with
    | some v => some v
    | none => sql

/-- One iteration of `for part in parts:` inside the content branch:
a part whose stripped, lowercased text starts with `'sql'` becomes the
candidate, as `part[3:].strip()`. -/
def partScan (sql : Option Str) (part : Str) : Option Str :=
  if sqlTag.isPrefixOf (pyLower (pyStrip part)) = true then some (pyStrip (part.drop 3))
  else sql

/-- The `if hasattr(rich_comp, 'content') and rich_comp.content:` branch of
the extraction loop, entered independently of the metadata branch. -/
def stepContent (c : RichComponent) (sql : Option Str) : Option Str :=
  if c.content ≠ [] ∧ occurs (pyLower c.content) fenceSqlMarker = true then
    (pySplit fenceDelim c.content).foldl partScan sql
  else sql

/-- Processing of one streamed component: the metadata branch runs first,
then the content branch runs on its result (two sequential `if`s in the
source, not `if`/`else`). -/
def componentStep (sql : Option Str) (c : RichComponent) : Option Str :=
  stepContent c (stepMeta c sql)

/-- Message of the `ValueError` raised when no SQL was extracted. -/
def noSqlMsg : String := "Agent did not generate SQL. Please try rephrasing your question."

/-- `VannaAgentWrapper._extract_sql_from_agent`: fold the extraction step
over the finite component stream; afterwards `if not sql: raise ValueError`
fails when the candidate was never set or was set to an empty string. -/
def extractSqlFromAgent (stream : List RichComponent) : Except String Str :=
  match stream.foldl componentStep none with
  | none => .error noSqlMsg
  | some s => if s = [] then .error noSqlMsg else .ok s

/-- The message `_execute_and_extract_results` sends to run SQL:
`f"Execute this SQL query:\n\n\x60\x60\x60sql\n{sql}\n\x60\x60\x60"`. -/
def executionPrompt (sql : Str) : Str :=
  strData "Execute this SQL query:\n\n```sql\n" ++ sql ++ strData "\n```"

/-- No occurrence of `sep` starts strictly inside the `A` part of `A ++ B`
(used to locate the fence chunks of a split). -/
def freeB (sep : Str) : Str → Str → Bool
  | [], _ => true
  | a :: A, B => !(sep.isPrefixOf (a :: (A ++ B))) && freeB sep A B

/-- A component that the extraction loop passes over unchanged: its metadata
mapping has no `'sql'` key and its lowercased content lacks the fenced-SQL
marker. -/
def Inert (c : RichComponent) : Prop :=
  c.metadata.lookup sqlTag = none ∧ occurs (pyLower c.content) fenceSqlMarker = false

/-- A component that sets the candidate SQL to `v` no matter what the
candidate was before it. -/
def SetsTo (c : RichComponent) (v : Str) : Prop :=
  ∀ acc, componentStep acc c = some v

/-- A component carrying SQL only in its metadata mapping. -/
def metaSqlComponent (v : Str) : RichComponent :=
  { metadata := [(sqlTag, v)], content := [] }

/-! ## The approval workflow of `TextToSQLService` -/

/-- One row of an execution result (a record mapping, opaque to the service). -/
abbrev Row := List (String × String)

/-- One value of the `pending_queries` mapping. -/
structure QueryInfo where
  question : String
  sql : String
  status : String
  generated_at : String
deriving DecidableEq

/-- The mutable state of `TextToSQLService` that the modelled operations
touch: the insertion-ordered `pending_queries` dict and the `is_trained`
flag, plus the prepared `schema_context`. -/
structure ServiceState where
  pending_queries : List (String × QueryInfo)
  is_trained : Bool
  schema_context : String
deriving DecidableEq

/-- Python dict assignment `d[k] = v`: replace in place when the key exists,
otherwise append (insertion order preserved). -/
def dictInsert (d : List (String × QueryInfo)) (k : String) (v : QueryInfo) :
    List (String × QueryInfo) :=
  if (d.lookup k).isSome then d.map (fun p => if p.1 = k then (k, v) else p)
  else d ++ [(k, v)]

/-- Python `del d[k]` (keys are unique in a dict). -/
def dictDelete (d : List (String × QueryInfo)) (k : String) : List (String × QueryInfo) :=
  d.filter (fun p => !(p.1 == k))

/-- The success payload of `generate_sql_for_approval`. -/
structure GenResponse where
  query_id : String
  question : String
  sql : String
  explanation : String
  status : String
deriving DecidableEq

/-- Message of the exception raised when generation is attempted before
`complete_training`. -/
def notReadyMsg : String := "Schema context not prepared. Call complete_training() first."

/-- The fixed explanation string returned with every generated query. -/
def explanationMsg : String :=
  "This SQL will retrieve data from your database. Please review before approving."

/-- `TextToSQLService.complete_training`: prepare the schema context and set
the `is_trained` flag. The built context itself is an opaque static blob
here; no modelled operation reads its content. -/
def complete_training (st : ServiceState) (builtContext : String) : ServiceState :=
  { st with schema_context := builtContext, is_trained := true }

/-- `TextToSQLService.generate_sql_for_approval`. The outcome of the
external generation call (`self.vanna.generate_sql_async`) is passed as the
oracle `genResult`; `query_id` stands for the fresh `uuid.uuid4()` and
`now` for `pd.Timestamp.now().isoformat()`. Exceptions are modelled as
`Except.error`; the state is returned unchanged when one is raised. -/
def generate_sql_for_approval (st : ServiceState) (question : String)
    (genResult : Except String String) (query_id now : String) :
    Except String GenResponse × ServiceState :=
  if st.is_trained = false then (.error notReadyMsg, st)
  else
    match genResult with
    | .error e => (.error ("Failed to generate SQL: " ++ e), st)
    | .ok sql =>
        (.ok { query_id := query_id, question := question, sql := sql,
               explanation := explanationMsg, status := "pending_approval" },
         { st with
             pending_queries := dictInsert st.pending_queries query_id
               { question := question, sql := sql, status := "pending_approval",
                 generated_at := now } })

/-- The result dictionary of `execute_approved_query`; absent keys are
`none`. -/
structure ExecResponse where
  query_id : Option String := none
  question : Option String := none
  sql : Option String := none
  results : Option (List Row) := none
  result_count : Option Nat := none
  message : Option String := none
  error : Option String := none
  status : String
deriving DecidableEq

/-- The `{'error': 'Query ID not found', 'status': 'error'}` result. -/
def notFoundResponse : ExecResponse :=
  { error := some "Query ID not found", status := "error" }

/-- The rejection result returned when the user declines execution. -/
def rejectResponse (query_id : String) : ExecResponse :=
  { query_id := some query_id, status := "rejected",
    message := some "Query execution cancelled by user" }

/-- `TextToSQLService.execute_approved_query`. The outcome of the execution
call (`self.vanna.execute_sql_async`) is passed as the oracle `execResult`;
the returned boolean records whether that call was made. On an execution
error the source returns the error dictionary from the `except` branch
without reaching the `del`, so the state is unchanged there. -/
def execute_approved_query (st : ServiceState) (query_id : String) (approved : Bool)
    (execResult : Except String (List Row)) : ExecResponse × ServiceState × Bool :=
  match st.pending_queries.lookup query_id with
  | none => (notFoundResponse, st, false)
  | some query_info =>
    if approved = false then
      (rejectResponse query_id,
       { st with pending_queries := dictDelete st.pending_queries query_id }, false)
    else
      match execResult with
      | .ok results =>
          ({ query_id := some query_id, question := some query_info.question,
             sql := some query_info.sql, results := some results,
             result_count := some results.length, status := "executed" },
           { st with pending_queries := dictDelete st.pending_queries query_id }, true)
      | .error e =>
          ({ query_id := some query_id, error := some e, status := "error" }, st, true)

/-- One element of the `get_pending_queries` listing:
`{'query_id': qid, **info}`. -/
structure PendingView where
  query_id : String
  question : String
  sql : String
  status : String
  generated_at : String
deriving DecidableEq

/-- `TextToSQLService.get_pending_queries`: a read-only listing of the
store. -/
def get_pending_queries (st : ServiceState) : List PendingView :=
  st.pending_queries.map (fun p =>
    { query_id := p.1, question := p.2.question, sql := p.2.sql,
      status := p.2.status, generated_at := p.2.generated_at })

/-- The store invariant: every stored entry has status `'pending_approval'`. -/
def storeOk (d : List (String × QueryInfo)) : Bool :=
  d.all (fun e => e.2.status == "pending_approval")

/-- A sample pending entry, for concrete instantiations. -/
def sampleInfo : QueryInfo :=
  { question := "How many customers?", sql := "SELECT COUNT(*) FROM customers;",
    status := "pending_approval", generated_at := "2024-01-01T00:00:00" }

/-- A sample service state holding one pending query `q1`. -/
def sampleState : ServiceState :=
  { pending_queries := [("q1", sampleInfo)], is_trained := true, schema_context := "" }

/-- A trained service state with an empty store. -/
def emptyState : ServiceState :=
  { pending_queries := [], is_trained := true, schema_context := "" }

/-! ## Lemmas on the string primitives -/

theorem isPrefixOf_append_self : ∀ (l t : Str), l.isPrefixOf (l ++ t) = true
  | [], _ => by simp [List.isPrefixOf]
  | a :: l, t => by simp [List.isPrefixOf, isPrefixOf_append_self l t]

theorem isPrefixOf_refl : ∀ (l : Str), l.isPrefixOf l = true
  | [] => by simp [List.isPrefixOf]
  | a :: l => by simp [List.isPrefixOf, isPrefixOf_refl l]

theorem isPrefixOf_length_le : ∀ {X Y : Str}, X.isPrefixOf Y = true → X.length ≤ Y.length
  | [], _, _ => Nat.zero_le _
  | _ :: _, [], h => by simp [List.isPrefixOf] at h
  | _ :: _, _ :: _, h => by
      simp only [List.isPrefixOf, Bool.and_eq_true] at h
      simpa using Nat.succ_le_succ (isPrefixOf_length_le h.2)

theorem eq_of_isPrefixOf_of_length_le :
    ∀ {X Y : Str}, X.isPrefixOf Y = true → Y.length ≤ X.length → X = Y
  | [], [], _, _ => rfl
  | [], _ :: _, _, hl => by simp at hl
  | _ :: _, [], h, _ => by simp [List.isPrefixOf] at h
  | a :: X, b :: Y, h, hl => by
      simp only [List.isPrefixOf, Bool.and_eq_true, beq_iff_eq] at h
      simp only [List.length_cons, Nat.succ_le_succ_iff] at hl
      rw [h.1, eq_of_isPrefixOf_of_length_le h.2 hl]

theorem prefix_append_split :
    ∀ {X : Str} {sep B : Str}, sep.isPrefixOf (X ++ B) = true →
      sep.isPrefixOf X = true ∨
        (X.isPrefixOf sep = true ∧ (sep.drop X.length).isPrefixOf B = true) := by
  intro X
  induction X with
  | nil =>
      intro sep B h
      exact Or.inr ⟨by simp [List.isPrefixOf], by simpa using h⟩
  | cons x xs ih =>
      intro sep B h
      match sep with
      | [] => exact Or.inl rfl
      | s :: ss =>
          simp only [List.cons_append, List.isPrefixOf, Bool.and_eq_true, beq_iff_eq] at h
          rcases ih h.2 with hl | ⟨h1, h2⟩
          · exact Or.inl (by simp [List.isPrefixOf, h.1, hl])
          · refine Or.inr ⟨by simp [List.isPrefixOf, h.1.symm, h1], ?_⟩
            simpa using h2

theorem occurs_cons (a : Char) (t needle : Str) :
    occurs (a :: t) needle = (needle.isPrefixOf (a :: t) || occurs t needle) := rfl

theorem occurs_middle : ∀ (A : Str) (m y : Str), occurs (A ++ m ++ y) m = true := by
  intro A
  induction A with
  | nil =>
      intro m y
      match m with
      | [] =>
          match y with
          | [] => rfl
          | b :: t => simp [occurs_cons, List.isPrefixOf]
      | a :: as => simp [occurs_cons, isPrefixOf_append_self]
  | cons a as ih =>
      intro m y
      rw [List.cons_append, List.cons_append, occurs_cons, ih m y, Bool.or_true]

/-! ## Lemmas on `pySplit` -/

theorem splitOnAux_nil_str (sep : Str) : ∀ f, splitOnAux sep f [] = [[]]
  | 0 => rfl
  | _ + 1 => rfl

theorem splitOnAux_ne_nil (sep : Str) : ∀ f s, splitOnAux sep f s ≠ []
  | 0, s => by simp [splitOnAux]
  | f + 1, [] => by simp [splitOnAux]
  | f + 1, a :: rest => by
      simp only [splitOnAux]
      by_cases hc : sep.isPrefixOf (a :: rest) = true ∧ sep ≠ []
      · simp [hc]
      · simp only [if_neg hc]
        cases splitOnAux sep f rest <;> simp

theorem splitOnAux_fuel (sep : Str) :
    ∀ (n f1 f2 : Nat) (s : Str), s.length ≤ f1 → s.length ≤ f2 → s.length ≤ n →
      splitOnAux sep f1 s = splitOnAux sep f2 s := by
  intro n
  induction n with
  | zero =>
      intro f1 f2 s _ _ h0
      have hs : s = [] := List.eq_nil_of_length_eq_zero (Nat.le_zero.mp h0)
      subst hs
      rw [splitOnAux_nil_str, splitOnAux_nil_str]
  | succ n ih =>
      intro f1 f2 s h1 h2 h0
      match s with
      | [] => rw [splitOnAux_nil_str, splitOnAux_nil_str]
      | a :: rest =>
          match f1, f2 with
          | g1 + 1, g2 + 1 =>
              have hr1 : rest.length ≤ g1 := by simpa using h1
              have hr2 : rest.length ≤ g2 := by simpa using h2
              have hr0 : rest.length ≤ n := by simpa using h0
              simp only [splitOnAux]
              by_cases hc : sep.isPrefixOf (a :: rest) = true ∧ sep ≠ []
              · simp only [if_pos hc]
                have hd : (List.drop (sep.length - 1) rest).length ≤ rest.length := by
                  simp [List.length_drop]
                rw [ih g1 g2 _ (le_trans hd hr1) (le_trans hd hr2) (le_trans hd hr0)]
              · simp only [if_neg hc]
                rw [ih g1 g2 rest hr1 hr2 hr0]

theorem pySplit_nil (sep : Str) : pySplit sep [] = [[]] := rfl

theorem pySplit_ne_nil (sep s : Str) : pySplit sep s ≠ [] :=
  splitOnAux_ne_nil sep s.length s

theorem pySplit_cons_pos {sep : Str} {a : Char} {rest : Str}
    (h1 : sep.isPrefixOf (a :: rest) = true) (h2 : sep ≠ []) :
    pySplit sep (a :: rest) = [] :: pySplit sep (List.drop (sep.length - 1) rest) := by
  show splitOnAux sep (rest.length + 1) (a :: rest) = _
  simp only [splitOnAux, if_pos (And.intro h1 h2)]
  have hd : (List.drop (sep.length - 1) rest).length ≤ rest.length := by
    simp [List.length_drop]
  exact congrArg (List.cons [])
    (splitOnAux_fuel sep rest.length rest.length
      (List.drop (sep.length - 1) rest).length (List.drop (sep.length - 1) rest)
      hd le_rfl hd)

theorem pySplit_cons_neg {sep : Str} {a : Char} {rest : Str}
    (h : ¬(sep.isPrefixOf (a :: rest) = true ∧ sep ≠ [])) :
    pySplit sep (a :: rest) = (a :: (pySplit sep rest).headI) :: (pySplit sep rest).tail := by
  show splitOnAux sep (rest.length + 1) (a :: rest) = _
  simp only [splitOnAux, if_neg h]
  cases hr : pySplit sep rest with
  | nil => exact absurd hr (pySplit_ne_nil sep rest)
  | cons b bs =>
      have hr' : splitOnAux sep rest.length rest = b :: bs := hr
      rw [hr']
      simp

theorem cons_headI_tail {l : List Str} (h : l ≠ []) : l.headI :: l.tail = l := by
  cases l with
  | nil => exact absurd rfl h
  | cons b bs => rfl

theorem freeB_nil (sep B : Str) : freeB sep [] B = true := rfl

theorem freeB_cons {sep : Str} {a : Char} {A B : Str} :
    freeB sep (a :: A) B = (!(sep.isPrefixOf (a :: (A ++ B))) && freeB sep A B) := rfl

theorem freeB_append (sep : Str) :
    ∀ (X Y B : Str), freeB sep (X ++ Y) B = (freeB sep X (Y ++ B) && freeB sep Y B) := by
  intro X
  induction X with
  | nil => intro Y B; simp [freeB_nil]
  | cons x xs ih =>
      intro Y B
      simp only [List.cons_append, freeB_cons, List.append_assoc, ih, Bool.and_assoc]

theorem freeB_of_head_ne {sep : Str} {sh : Char} {stl : Str} (hsep : sep = sh :: stl)
    {X : Str} (hX : ∀ c ∈ X, c ≠ sh) (B : Str) : freeB sep X B = true := by
  subst hsep
  induction X with
  | nil => rfl
  | cons x xs ih =>
      have hx : (sh == x) = false := beq_eq_false_iff_ne.mpr (fun h => hX x (by simp) h.symm)
      rw [freeB_cons]
      simp only [List.isPrefixOf, hx, Bool.false_and, Bool.not_false, Bool.true_and]
      exact ih (fun c hc => hX c (by simp [hc]))

theorem freeB_no_occur {sep X B : Str}
    (hX : occurs X sep = false)
    (hB : ∀ j, j < sep.length → (sep.drop j).isPrefixOf B = false) :
    freeB sep X B = true := by
  induction X with
  | nil => rfl
  | cons x xs ih =>
      rw [occurs_cons, Bool.or_eq_false_iff] at hX
      obtain ⟨hX1, hX2⟩ := hX
      rw [freeB_cons, Bool.and_eq_true, Bool.not_eq_true']
      refine ⟨?_, ih hX2⟩
      by_contra hcon
      rw [Bool.not_eq_false] at hcon
      have hcon' : sep.isPrefixOf ((x :: xs) ++ B) = true := by simpa using hcon
      rcases prefix_append_split hcon' with hl | ⟨h1, h2⟩
      · rw [hX1] at hl; exact Bool.false_ne_true hl
      · by_cases hlen : (x :: xs).length < sep.length
        · rw [hB _ hlen] at h2; exact Bool.false_ne_true h2
        · have heq : x :: xs = sep :=
            eq_of_isPrefixOf_of_length_le h1 (Nat.le_of_not_lt hlen)
          rw [← heq, isPrefixOf_refl] at hX1
          simp at hX1

theorem pySplit_free_append {sep : Str} :
    ∀ {A : Str} (B : Str), freeB sep A B = true →
      pySplit sep (A ++ B) = (A ++ (pySplit sep B).headI) :: (pySplit sep B).tail := by
  intro A
  induction A with
  | nil =>
      intro B _
      simpa using (cons_headI_tail (pySplit_ne_nil sep B)).symm
  | cons a A' ih =>
      intro B hfree
      rw [freeB_cons, Bool.and_eq_true, Bool.not_eq_true'] at hfree
      have hneg : ¬(sep.isPrefixOf (a :: (A' ++ B)) = true ∧ sep ≠ []) := by
        intro hc; rw [hfree.1] at hc; exact Bool.false_ne_true hc.1
      rw [List.cons_append, pySplit_cons_neg hneg, ih B hfree.2]
      simp

theorem pySplit_sep_append {sep : Str} (hsep : sep ≠ []) (B : Str) :
    pySplit sep (sep ++ B) = [] :: pySplit sep B := by
  match sep, hsep with
  | sh :: stl, _hsep =>
      rw [List.cons_append,
        pySplit_cons_pos (by simpa using isPrefixOf_append_self (sh :: stl) B)
          (List.cons_ne_nil sh stl)]
      have hlen : (sh :: stl).length - 1 = stl.length := by simp
      rw [hlen, List.drop_left]

theorem pySplit_three {P M : Str}
    (hP : freeB fenceDelim P (fenceDelim ++ M ++ fenceDelim) = true)
    (hM : freeB fenceDelim M fenceDelim = true) :
    pySplit fenceDelim (P ++ fenceDelim ++ M ++ fenceDelim) = [P, M, []] := by
  have hfd : fenceDelim ≠ [] := by decide
  have hMf : pySplit fenceDelim (M ++ fenceDelim) = [M, []] := by
    have hff : pySplit fenceDelim fenceDelim = [[], []] := by
      have := pySplit_sep_append hfd []
      simpa [pySplit_nil] using this
    rw [pySplit_free_append fenceDelim hM, hff]
    simp
  calc pySplit fenceDelim (P ++ fenceDelim ++ M ++ fenceDelim)
      = pySplit fenceDelim (P ++ (fenceDelim ++ M ++ fenceDelim)) := by
        simp [List.append_assoc]
    _ = (P ++ (pySplit fenceDelim (fenceDelim ++ M ++ fenceDelim)).headI) ::
          (pySplit fenceDelim (fenceDelim ++ M ++ fenceDelim)).tail :=
        pySplit_free_append _ hP
    _ = [P, M, []] := by
        have : pySplit fenceDelim (fenceDelim ++ M ++ fenceDelim) =
            [] :: pySplit fenceDelim (M ++ fenceDelim) := by
          rw [List.append_assoc, pySplit_sep_append hfd]
        rw [this, hMf]
        simp

/-! ## Lemmas on `pyStrip` and `pyLower` -/

theorem dropLeadWS_cons_space {c : Char} (h : isPySpace c = true) (x : Str) :
    dropLeadWS (c :: x) = dropLeadWS x := by
  simp [dropLeadWS, List.dropWhile_cons, h]

theorem dropLeadWS_cons_nospace {c : Char} (h : isPySpace c = false) (x : Str) :
    dropLeadWS (c :: x) = c :: x := by
  simp [dropLeadWS, List.dropWhile_cons, h]

theorem dropLeadWS_append (x y : Str) :
    dropLeadWS (x ++ y) = if dropLeadWS x = [] then dropLeadWS y else dropLeadWS x ++ y := by
  simp only [dropLeadWS, List.dropWhile_append]
  by_cases h : (x.dropWhile isPySpace).isEmpty = true
  · rw [if_pos h, if_pos (List.isEmpty_iff.mp h)]
  · rw [if_neg h, if_neg (fun hc => h (List.isEmpty_iff.mpr hc))]

theorem dropTrailWS_append_space {c : Char} (h : isPySpace c = true) (x : Str) :
    dropTrailWS (x ++ [c]) = dropTrailWS x := by
  simp [dropTrailWS, List.dropWhile_cons, h]

theorem dropTrailWS_append (x y : Str) :
    dropTrailWS (x ++ y) = if dropTrailWS y = [] then dropTrailWS x else x ++ dropTrailWS y := by
  simp only [dropTrailWS, List.reverse_append, List.dropWhile_append]
  by_cases h : (y.reverse.dropWhile isPySpace).isEmpty = true
  · rw [if_pos h, if_pos]
    simp [List.isEmpty_iff.mp h]
  · rw [if_neg h, if_neg, List.reverse_append, List.reverse_reverse]
    intro hc
    apply h
    rw [List.isEmpty_iff]
    have := congrArg List.reverse hc
    simpa using this

theorem pyStrip_cons_space {c : Char} (h : isPySpace c = true) (x : Str) :
    pyStrip (c :: x) = pyStrip x := by
  simp [pyStrip, dropLeadWS_cons_space h]

theorem pyStrip_append_space {c : Char} (h : isPySpace c = true) (x : Str) :
    pyStrip (x ++ [c]) = pyStrip x := by
  simp only [pyStrip, dropLeadWS_append]
  by_cases hx : dropLeadWS x = []
  · rw [if_pos hx, hx, dropLeadWS_cons_space h, show dropLeadWS [] = [] from rfl]
  · rw [if_neg hx, dropTrailWS_append_space h]

theorem pyStrip_sqlTag_append (B : Str) : ∃ R, pyStrip (sqlTag ++ B) = sqlTag ++ R := by
  have hsql : sqlTag = 's' :: strData "ql" := by decide
  have hlead : dropLeadWS (sqlTag ++ B) = sqlTag ++ B := by
    rw [hsql, List.cons_append]
    exact dropLeadWS_cons_nospace (by decide) _
  rw [pyStrip, hlead, dropTrailWS_append]
  by_cases hB : dropTrailWS B = []
  · exact ⟨[], by rw [if_pos hB]; simp; decide⟩
  · exact ⟨dropTrailWS B, by rw [if_neg hB]⟩

theorem pyLower_append (x y : Str) : pyLower (x ++ y) = pyLower x ++ pyLower y := by
  simp [pyLower]

/-! ## Behaviour of the extraction step on fenced execution prompts -/

theorem executionPrompt_decomp (s : Str) :
    executionPrompt s =
      strData "Execute this SQL query:\n\n" ++ fenceDelim ++
        (strData "sql\n" ++ (s ++ strData "\n")) ++ fenceDelim := by
  have hpre : strData "Execute this SQL query:\n\n```sql\n" =
      strData "Execute this SQL query:\n\n" ++ fenceDelim ++ strData "sql\n" := by decide
  have hpost : strData "\n```" = strData "\n" ++ fenceDelim := by decide
  rw [executionPrompt, hpre, hpost]
  simp [List.append_assoc]

theorem executionPrompt_ne_nil (s : Str) : executionPrompt s ≠ [] := by
  rw [executionPrompt]
  intro h
  rcases List.append_eq_nil.mp h with ⟨h1, -⟩
  rcases List.append_eq_nil.mp h1 with ⟨h2, -⟩
  exact absurd h2 (by decide)

theorem executionPrompt_marker (s : Str) :
    occurs (pyLower (executionPrompt s)) fenceSqlMarker = true := by
  have hdec : executionPrompt s =
      strData "Execute this SQL query:\n\n" ++ fenceSqlMarker ++
        (strData "\n" ++ (s ++ strData "\n```")) := by
    have hpre : strData "Execute this SQL query:\n\n```sql\n" =
        strData "Execute this SQL query:\n\n" ++ fenceSqlMarker ++ strData "\n" := by decide
    rw [executionPrompt, hpre]
    simp [List.append_assoc]
  rw [hdec, pyLower_append, pyLower_append,
    show pyLower fenceSqlMarker = fenceSqlMarker from by decide]
  exact occurs_middle _ _ _

theorem pySplit_executionPrompt {s : Str} (hs : occurs s fenceDelim = false) :
    pySplit fenceDelim (executionPrompt s) =
      [strData "Execute this SQL query:\n\n", strData "sql\n" ++ (s ++ strData "\n"), []] := by
  have hfd : fenceDelim = Char.ofNat 96 :: strData "``" := by decide
  rw [executionPrompt_decomp]
  refine pySplit_three ?_ ?_
  · exact freeB_of_head_ne hfd (by decide) _
  · rw [freeB_append]
    refine Bool.and_eq_true_iff.mpr ⟨freeB_of_head_ne hfd (by decide) _, ?_⟩
    rw [freeB_append]
    refine Bool.and_eq_true_iff.mpr ⟨?_, ?_⟩
    · exact freeB_no_occur hs (by decide)
    · decide

theorem pyStrip_sql_chunk (s : Str) :
    pyStrip (List.drop 3 (strData "sql\n" ++ (s ++ strData "\n"))) = pyStrip s := by
  have hsplit : strData "sql\n" ++ (s ++ strData "\n") =
      sqlTag ++ (strData "\n" ++ (s ++ strData "\n")) := by
    rw [show strData "sql\n" = sqlTag ++ strData "\n" from by decide]
    simp [List.append_assoc]
  have hdrop : List.drop 3 (sqlTag ++ (strData "\n" ++ (s ++ strData "\n"))) =
      strData "\n" ++ (s ++ strData "\n") := by
    have := List.drop_left sqlTag (strData "\n" ++ (s ++ strData "\n"))
    rwa [show sqlTag.length = 3 from by decide] at this
  rw [hsplit, hdrop, show strData "\n" = ['\n'] from rfl, List.cons_append, List.nil_append,
    pyStrip_cons_space (by decide), pyStrip_append_space (by decide)]

theorem partScan_sql_chunk (acc : Option Str) (s : Str) :
    partScan acc (strData "sql\n" ++ (s ++ strData "\n")) = some (pyStrip s) := by
  have hsplit : strData "sql\n" ++ (s ++ strData "\n") =
      sqlTag ++ (strData "\n" ++ (s ++ strData "\n")) := by
    rw [show strData "sql\n" = sqlTag ++ strData "\n" from by decide]
    simp [List.append_assoc]
  obtain ⟨R, hR⟩ := pyStrip_sqlTag_append (strData "\n" ++ (s ++ strData "\n"))
  have hcond : sqlTag.isPrefixOf
      (pyLower (pyStrip (strData "sql\n" ++ (s ++ strData "\n")))) = true := by
    rw [hsplit, hR, pyLower_append, show pyLower sqlTag = sqlTag from by decide]
    exact isPrefixOf_append_self _ _
  rw [partScan, if_pos hcond, pyStrip_sql_chunk]

theorem stepContent_prompt {s : Str} (hs : occurs s fenceDelim = false)
    (m : List (Str × Str)) (acc : Option Str) :
    stepContent ⟨m, executionPrompt s⟩ acc = some (pyStrip s) := by
  rw [stepContent, if_pos (And.intro (executionPrompt_ne_nil s) (executionPrompt_marker s))]
  rw [show RichComponent.content ⟨m, executionPrompt s⟩ = executionPrompt s from rfl,
    pySplit_executionPrompt hs]
  rw [List.foldl_cons, List.foldl_cons, List.foldl_cons, List.foldl_nil]
  rw [show partScan acc (strData "Execute this SQL query:\n\n") = acc from by
    rw [partScan, if_neg]; decide]
  rw [partScan_sql_chunk]
  rw [partScan, if_neg]
  decide

/-! ## Lemmas on the extraction fold -/

theorem componentStep_inert {c : RichComponent} (h : Inert c) (acc : Option Str) :
    componentStep acc c = acc := by
  obtain ⟨h1, h2⟩ := h
  have hm : stepMeta c acc = acc := by
    rw [stepMeta]
    by_cases hc : c.metadata = []
    · rw [if_pos hc]
    · rw [if_neg hc, h1]
  rw [componentStep, hm, stepContent, if_neg]
  intro hcon
  rw [h2] at hcon
  exact Bool.false_ne_true hcon.2

theorem foldl_inert {p : List RichComponent} (h : ∀ c ∈ p, Inert c) :
    ∀ acc, p.foldl componentStep acc = acc := by
  induction p with
  | nil => intro acc; rfl
  | cons c t ih =>
      intro acc
      rw [List.foldl_cons, componentStep_inert (h c (by simp)),
        ih (fun x hx => h x (by simp [hx]))]

theorem setsTo_eq {c : RichComponent} {v : Str} (h : SetsTo c v) (acc : Option Str) :
    componentStep acc c = some v := h acc

theorem metaSql_sets (v : Str) : SetsTo (metaSqlComponent v) v := by
  intro acc
  have hm : stepMeta (metaSqlComponent v) acc = some v := by
    rw [stepMeta, if_neg (by simp [metaSqlComponent])]
    simp [metaSqlComponent, List.lookup]
  rw [componentStep, hm, stepContent, if_neg]
  intro hcon
  exact hcon.1 rfl

theorem fenced_sets {s : Str} (hs : occurs s fenceDelim = false) :
    SetsTo ⟨[], executionPrompt s⟩ (pyStrip s) := by
  intro acc
  have hm : stepMeta ⟨[], executionPrompt s⟩ acc = acc := by
    rw [stepMeta, if_pos rfl]
  rw [componentStep, hm]
  exact stepContent_prompt hs [] acc

/-! ## Lemmas on the pending-query store -/

theorem lookup_dictDelete (d : List (String × QueryInfo)) (k : String) :
    (dictDelete d k).lookup k = none := by
  induction d with
  | nil => rfl
  | cons p t ih =>
      rw [dictDelete, List.filter_cons]
      cases hpk : p.1 == k with
      | true =>
          simp only [hpk, Bool.not_true, Bool.false_eq_true, if_false]
          exact ih
      | false =>
          simp only [hpk, Bool.not_false, if_true]
          have hkp : (k == p.1) = false :=
            beq_eq_false_iff_ne.mpr (fun h => (beq_eq_false_iff_ne.mp hpk) h.symm)
          rw [List.lookup, hkp]
          exact ih

theorem mem_dictDelete {d : List (String × QueryInfo)} {k : String} {e : String × QueryInfo}
    (h : e ∈ dictDelete d k) : e ∈ d :=
  (List.mem_filter.mp h).1

theorem mem_dictInsert {d : List (String × QueryInfo)} {k : String} {v : QueryInfo}
    {e : String × QueryInfo} (h : e ∈ dictInsert d k v) : e ∈ d ∨ e = (k, v) := by
  rw [dictInsert] at h
  by_cases hl : (d.lookup k).isSome
  · rw [if_pos hl] at h
    rcases List.mem_map.mp h with ⟨x, hx, hfx⟩
    by_cases hxk : x.1 = k
    · right; rw [← hfx, if_pos hxk]
    · left; rw [← hfx, if_neg hxk]; exact hx
  · rw [if_neg hl] at h
    rcases List.mem_append.mp h with hm | hm
    · exact Or.inl hm
    · exact Or.inr (List.mem_singleton.mp hm)

/-! ## The claims -/

/-- Claim C3: for a finite stream whose only SQL-setting components are
`c1` and then, later, `c2` (every other component is passed over unchanged),
with the two set values different, the extraction iterates the whole stream
and returns the value set by the later component `c2`, for streams of any
length. -/
theorem claim_C3_last_write_wins (p0 p1 p2 : List RichComponent) (c1 c2 : RichComponent)
    (v1 v2 : Str) (h0 : ∀ c ∈ p0, Inert c) (h1 : ∀ c ∈ p1, Inert c)
    (h2 : ∀ c ∈ p2, Inert c) (hc1 : SetsTo c1 v1) (hc2 : SetsTo c2 v2)
    (_hne : v1 ≠ v2) (hv2 : v2 ≠ []) :
    extractSqlFromAgent (p0 ++ c1 :: (p1 ++ c2 :: p2)) = .ok v2 := by
  have hfold : (p0 ++ c1 :: (p1 ++ c2 :: p2)).foldl componentStep none = some v2 := by
    rw [List.foldl_append, List.foldl_cons, List.foldl_append, List.foldl_cons]
    rw [foldl_inert h0, setsTo_eq hc1, foldl_inert h1, setsTo_eq hc2, foldl_inert h2]
  unfold extractSqlFromAgent
  rw [hfold]
  simp [hv2]

/-- Witness for C3 at a concrete three-component stream: a metadata setter,
an inert narration component, then a second metadata setter; the later
value wins. -/
theorem claim_C3_witness :
    extractSqlFromAgent
      [metaSqlComponent (strData "SELECT 1"),
        { metadata := [], content := strData "thinking" },
        metaSqlComponent (strData "SELECT 2")] = .ok (strData "SELECT 2") := by
  have h := claim_C3_last_write_wins []
      [{ metadata := [], content := strData "thinking" }] []
      (metaSqlComponent (strData "SELECT 1")) (metaSqlComponent (strData "SELECT 2"))
      (strData "SELECT 1") (strData "SELECT 2")
      (by intro c hc; exact absurd hc (List.not_mem_nil c))
      (by
        intro c hc
        rw [List.mem_singleton.mp hc]
        exact ⟨by decide, by decide⟩)
      (by intro c hc; exact absurd hc (List.not_mem_nil c))
      (metaSql_sets _) (metaSql_sets _) (by decide) (by decide)
  exact h

/-- Claim C4 counterexample: a single component carrying a non-empty `sql`
metadata value AND a fenced SQL block in its content. The claim says the
metadata value (`SELECT 1`) takes precedence within one component; the code
runs the content branch after the metadata branch (no `else`), so the
fenced value (`SELECT 2`) wins. -/
theorem claim_C4_counterexample :
    extractSqlFromAgent
        [{ metadata := [(sqlTag, strData "SELECT 1")],
           content := executionPrompt (strData "SELECT 2") }] =
      .ok (strData "SELECT 2") ∧ strData "SELECT 2" ≠ strData "SELECT 1" := by
  constructor
  · have hstep : componentStep none
        ⟨[(sqlTag, strData "SELECT 1")], executionPrompt (strData "SELECT 2")⟩ =
          some (strData "SELECT 2") := by
      rw [componentStep, stepContent_prompt (by decide)]
      decide
    unfold extractSqlFromAgent
    rw [List.foldl_cons, List.foldl_nil, hstep]
    simp [show strData "SELECT 2" ≠ [] from by decide]
  · decide

/-- Claim C4 amended: the two branches of the per-component scan are
sequential, not `if`/`else`. A fenced SQL block in the content overwrites
the `sql` metadata value of the same component, and a `sql` metadata entry
present in a truthy metadata mapping overwrites the prior candidate even
when its value is empty (after which extraction fails, since the final
candidate is falsy). -/
theorem claim_C4_amended :
    (∀ (v s : Str) (acc : Option Str), occurs s fenceDelim = false →
        componentStep acc ⟨[(sqlTag, v)], executionPrompt s⟩ = some (pyStrip s)) ∧
      ∀ v : Str, v ≠ [] →
        extractSqlFromAgent [metaSqlComponent v, metaSqlComponent []] = .error noSqlMsg := by
  constructor
  · intro v s acc hs
    rw [componentStep, stepContent_prompt hs]
  · intro v hv
    unfold extractSqlFromAgent
    rw [List.foldl_cons, List.foldl_cons, List.foldl_nil,
      setsTo_eq (metaSql_sets v), setsTo_eq (metaSql_sets [])]
    simp

/-- Witness for the amended C4 at concrete inputs: the fenced value `B`
beats the metadata value `A` inside one component, and an empty metadata
value wipes a previously set candidate `A`. -/
theorem claim_C4_amended_witness :
    componentStep none ⟨[(sqlTag, strData "A")], executionPrompt (strData "B")⟩ =
        some (strData "B") ∧
      extractSqlFromAgent [metaSqlComponent (strData "A"), metaSqlComponent []] =
        .error noSqlMsg := by
  constructor
  · rw [claim_C4_amended.1 (strData "A") (strData "B") none (by decide)]
    decide
  · exact claim_C4_amended.2 (strData "A") (by decide)

/-- Claim C5: round-trip through the fenced-block serialization used by
`_execute_and_extract_results`. Serializing a SQL string `s` that contains
no fence delimiter into the execution-prompt format and extracting from a
one-component stream that carries it as content recovers `s` up to trim
normalization (`pyStrip`). -/
theorem claim_C5_fenced_roundtrip (s : Str) (h1 : occurs s fenceDelim = false)
    (h2 : pyStrip s ≠ []) :
    extractSqlFromAgent [⟨[], executionPrompt s⟩] = .ok (pyStrip s) := by
  have hfold : List.foldl componentStep none [⟨[], executionPrompt s⟩] = some (pyStrip s) := by
    rw [List.foldl_cons, List.foldl_nil]
    exact fenced_sets h1 none
  unfold extractSqlFromAgent
  rw [hfold]
  simp [h2]

/-- Witness for C5 at a concrete already-trimmed SQL string, recovered
exactly. -/
theorem claim_C5_witness :
    occurs (strData "SELECT COUNT(*) FROM customers;") fenceDelim = false ∧
      extractSqlFromAgent
          [⟨[], executionPrompt (strData "SELECT COUNT(*) FROM customers;")⟩] =
        .ok (strData "SELECT COUNT(*) FROM customers;") := by
  refine ⟨by decide, ?_⟩
  rw [claim_C5_fenced_roundtrip (strData "SELECT COUNT(*) FROM customers;")
    (by decide) (by decide)]
  exact congrArg Except.ok (by decide)

/-- Claim C6: a stream in which no component carries a `sql` metadata key
and no component's lowercased content contains the fenced-SQL marker makes
extraction fail with the generation error (a raised `ValueError`), rather
than return a value. -/
theorem claim_C6_no_signal (stream : List RichComponent)
    (h : ∀ c ∈ stream, c.metadata.lookup sqlTag = none ∧
      occurs (pyLower c.content) fenceSqlMarker = false) :
    extractSqlFromAgent stream = .error noSqlMsg := by
  have hfold := foldl_inert (p := stream) h none
  unfold extractSqlFromAgent
  rw [hfold]

/-- Witness for C6 at a concrete narration-only stream. -/
theorem claim_C6_witness :
    extractSqlFromAgent
        [{ metadata := [], content := strData "Let me think about that." }] =
      .error noSqlMsg :=
  claim_C6_no_signal _ (by
    intro c hc
    rw [List.mem_singleton.mp hc]
    exact ⟨by decide, by decide⟩)

/-- Claim C1 counterexample: with query `q1` pending, resolving it with
approval while SQL execution fails leaves the store UNCHANGED — the entry
is still present afterwards, whereas the claim says it is removed
regardless. The structured error result itself is returned as claimed. -/
theorem claim_C1_counterexample :
    execute_approved_query sampleState "q1" true (.error "relation does not exist") =
        ({ query_id := some "q1", error := some "relation does not exist",
           status := "error" }, sampleState, true) ∧
      (sampleState.pending_queries.lookup "q1").isSome = true := by
  constructor
  · decide
  · decide

/-- Claim C1 amended: when a pending query is approved and execution fails,
the structured error result `{query_id, status: error, error: <message>}`
is returned as a value (no exception), the execution call was made, and the
pending entry is RETAINED — the store is unchanged, since the source only
deletes the entry on the success path. -/
theorem claim_C1_exec_error_retains_entry (st : ServiceState) (qid : String)
    (info : QueryInfo) (e : String)
    (h : st.pending_queries.lookup qid = some info) :
    execute_approved_query st qid true (.error e) =
      ({ query_id := some qid, error := some e, status := "error" }, st, true) := by
  simp [execute_approved_query, h]

/-- Witness for the amended C1 at the sample state. -/
theorem claim_C1_witness :
    sampleState.pending_queries.lookup "q1" = some sampleInfo ∧
      execute_approved_query sampleState "q1" true (.error "boom") =
        ({ query_id := some "q1", error := some "boom", status := "error" },
          sampleState, true) :=
  ⟨by decide, claim_C1_exec_error_retains_entry sampleState "q1" sampleInfo "boom" (by decide)⟩

/-- Claim C2: the execution call is made exactly when the query is approved
AND present in the store; a rejection removes the entry and returns the
rejection result without any execution call, and an absent id never leads
to an execution call. -/
theorem claim_C2_execution_gate (st : ServiceState) (qid : String)
    (r : Except String (List Row)) :
    ((execute_approved_query st qid true r).2.2 = true ↔
        (st.pending_queries.lookup qid).isSome = true) ∧
      (∀ (ap : Bool) (r2 : Except String (List Row)),
        st.pending_queries.lookup qid = none →
          (execute_approved_query st qid ap r2).2.2 = false) ∧
      (∀ info, st.pending_queries.lookup qid = some info →
        execute_approved_query st qid false r =
          (rejectResponse qid,
            { st with pending_queries := dictDelete st.pending_queries qid }, false)) := by
  refine ⟨?_, ?_, ?_⟩
  · cases hl : st.pending_queries.lookup qid with
    | none => simp [execute_approved_query, hl]
    | some info => cases r <;> simp [execute_approved_query, hl]
  · intro ap r2 hl
    simp [execute_approved_query, hl]
  · intro info hl
    simp [execute_approved_query, hl]

/-- Witness for C2 at concrete states: execution happens for an approved
present query, and a rejection returns the rejection result with the entry
deleted and no execution call. -/
theorem claim_C2_witness :
    (execute_approved_query sampleState "q1" true (.ok [])).2.2 = true ∧
      (execute_approved_query sampleState "zzz" true (.ok [])).2.2 = false ∧
      execute_approved_query sampleState "q1" false (.ok []) =
        (rejectResponse "q1",
          { sampleState with pending_queries := dictDelete sampleState.pending_queries "q1" },
          false) := by
  refine ⟨?_, ?_, ?_⟩
  · exact (claim_C2_execution_gate sampleState "q1" (.ok [])).1.mpr (by decide)
  · exact (claim_C2_execution_gate sampleState "zzz" (.ok [])).2.1 true (.ok []) (by decide)
  · exact (claim_C2_execution_gate sampleState "q1" (.ok [])).2.2 sampleInfo (by decide)

/-- Claim C7: generating before the schema context was prepared
(`is_trained = false`) raises the not-ready error and leaves the store (and
the whole state) unchanged: no pending entry is created. -/
theorem claim_C7_not_ready (st : ServiceState) (question : String)
    (genResult : Except String String) (query_id now : String)
    (h : st.is_trained = false) :
    generate_sql_for_approval st question genResult query_id now =
      (.error notReadyMsg, st) := by
  simp [generate_sql_for_approval, h]

/-- Witness for C7 at a fresh untrained state. -/
theorem claim_C7_witness :
    ({ pending_queries := [], is_trained := false, schema_context := "" } :
        ServiceState).is_trained = false ∧
      generate_sql_for_approval
          { pending_queries := [], is_trained := false, schema_context := "" }
          "How many customers?" (.ok "SELECT 1") "q1" "t0" =
        (.error notReadyMsg,
          { pending_queries := [], is_trained := false, schema_context := "" }) :=
  ⟨rfl, claim_C7_not_ready _ "How many customers?" (.ok "SELECT 1") "q1" "t0" rfl⟩

/-- Claim C8: starting from a trained state with an empty store, a
successful generation returns the pending-approval view, the listing then
holds exactly that one entry, rejecting it returns the rejection result,
and the listing is empty afterwards. -/
theorem claim_C8_generate_then_reject (st : ServiceState) (q s Q now : String)
    (r : Except String (List Row)) (hp : st.pending_queries = [])
    (ht : st.is_trained = true) :
    (generate_sql_for_approval st q (.ok s) Q now).1 =
        .ok { query_id := Q, question := q, sql := s, explanation := explanationMsg,
              status := "pending_approval" } ∧
      get_pending_queries (generate_sql_for_approval st q (.ok s) Q now).2 =
        [{ query_id := Q, question := q, sql := s, status := "pending_approval",
           generated_at := now }] ∧
      (execute_approved_query (generate_sql_for_approval st q (.ok s) Q now).2 Q false r).1 =
        rejectResponse Q ∧
      get_pending_queries
          (execute_approved_query (generate_sql_for_approval st q (.ok s) Q now).2
            Q false r).2.1 = [] := by
  have hgen : (generate_sql_for_approval st q (.ok s) Q now).2 =
      { st with pending_queries :=
          [(Q, { question := q, sql := s, status := "pending_approval",
                 generated_at := now })] } := by
    simp [generate_sql_for_approval, ht, dictInsert, hp]
  refine ⟨?_, ?_, ?_, ?_⟩
  · simp [generate_sql_for_approval, ht]
  · rw [hgen]; simp [get_pending_queries]
  · rw [hgen]; simp [execute_approved_query, List.lookup]
  · rw [hgen]
    simp [execute_approved_query, List.lookup, dictDelete, List.filter, get_pending_queries]

/-- Witness for C8: the full generate-then-reject cycle at concrete
inputs. -/
theorem claim_C8_witness :
    (generate_sql_for_approval emptyState "How many customers?"
          (.ok "SELECT COUNT(*) FROM customers;") "q7" "t1").1 =
        .ok { query_id := "q7", question := "How many customers?",
              sql := "SELECT COUNT(*) FROM customers;", explanation := explanationMsg,
              status := "pending_approval" } ∧
      get_pending_queries
          (generate_sql_for_approval emptyState "How many customers?"
            (.ok "SELECT COUNT(*) FROM customers;") "q7" "t1").2 =
        [{ query_id := "q7", question := "How many customers?",
           sql := "SELECT COUNT(*) FROM customers;", status := "pending_approval",
           generated_at := "t1" }] ∧
      (execute_approved_query
          (generate_sql_for_approval emptyState "How many customers?"
            (.ok "SELECT COUNT(*) FROM customers;") "q7" "t1").2 "q7" false (.ok [])).1 =
        rejectResponse "q7" ∧
      get_pending_queries
          (execute_approved_query
            (generate_sql_for_approval emptyState "How many customers?"
              (.ok "SELECT COUNT(*) FROM customers;") "q7" "t1").2 "q7" false
            (.ok [])).2.1 = [] :=
  claim_C8_generate_then_reject emptyState "How many customers?"
    "SELECT COUNT(*) FROM customers;" "q7" "t1" (.ok []) rfl rfl

/-- Claim C9: resolving an id that is absent from the store returns the
not-found error result as a value, with the state unchanged and no
execution call; and after a successful approved resolution removed the
entry, a second approved resolution of the same id hits exactly this
not-found path (idempotent removal, no double execution). -/
theorem claim_C9_not_found (st : ServiceState) (qid : String) :
    (∀ (ap : Bool) (r : Except String (List Row)),
        st.pending_queries.lookup qid = none →
          execute_approved_query st qid ap r = (notFoundResponse, st, false)) ∧
      (∀ (info : QueryInfo) (res : List Row) (r2 : Except String (List Row)),
        st.pending_queries.lookup qid = some info →
          execute_approved_query
              (execute_approved_query st qid true (.ok res)).2.1 qid true r2 =
            (notFoundResponse, (execute_approved_query st qid true (.ok res)).2.1,
              false)) := by
  constructor
  · intro ap r h
    simp [execute_approved_query, h]
  · intro info res r2 h
    have hst : (execute_approved_query st qid true (.ok res)).2.1 =
        { st with pending_queries := dictDelete st.pending_queries qid } := by
      simp [execute_approved_query, h]
    rw [hst]
    simp [execute_approved_query, lookup_dictDelete]

/-- Witness for C9: a missing id at the sample state, and the
double-resolution of `q1`. -/
theorem claim_C9_witness :
    execute_approved_query sampleState "zzz" true (.ok []) =
        (notFoundResponse, sampleState, false) ∧
      execute_approved_query
          (execute_approved_query sampleState "q1" true (.ok [])).2.1 "q1" true (.ok []) =
        (notFoundResponse, (execute_approved_query sampleState "q1" true (.ok [])).2.1,
          false) :=
  ⟨(claim_C9_not_found sampleState "zzz").1 true (.ok []) (by decide),
    (claim_C9_not_found sampleState "q1").2 sampleInfo [] (.ok []) (by decide)⟩

/-- Claim C10: store invariant. Generation preserves the all-entries-are-
pending-approval invariant and only ever adds the single whole new entry
(every entry of the new store is an old entry or the freshly inserted one);
resolution only ever removes entries (every remaining entry was already in
the old store, unchanged); the listing is a pure read by construction. -/
theorem claim_C10_store_invariant :
    (∀ (st : ServiceState) (q : String) (g : Except String String) (Q now : String),
        storeOk st.pending_queries = true →
          storeOk (generate_sql_for_approval st q g Q now).2.pending_queries = true) ∧
      (∀ (st : ServiceState) (q s Q now : String),
        (generate_sql_for_approval st q (.ok s) Q now).2.pending_queries ⊆
          st.pending_queries ++
            [(Q, { question := q, sql := s, status := "pending_approval",
                   generated_at := now })]) ∧
      (∀ (st : ServiceState) (qid : String) (ap : Bool) (r : Except String (List Row)),
        (execute_approved_query st qid ap r).2.1.pending_queries ⊆ st.pending_queries) := by
  have hins : ∀ (st : ServiceState) (q s Q now : String),
      (generate_sql_for_approval st q (.ok s) Q now).2.pending_queries ⊆
        st.pending_queries ++
          [(Q, { question := q, sql := s, status := "pending_approval",
                 generated_at := now })] := by
    intro st q s Q now e he
    by_cases ht : st.is_trained = false
    · simp [generate_sql_for_approval, ht] at he
      simp [he]
    · simp only [generate_sql_for_approval, if_neg ht] at he
      rcases mem_dictInsert he with hm | hm
      · exact List.mem_append.mpr (Or.inl hm)
      · exact List.mem_append.mpr (Or.inr (by simp [hm]))
  refine ⟨?_, hins, ?_⟩
  · intro st q g Q now hok
    match g with
    | .error e =>
        by_cases ht : st.is_trained = false <;>
          simpa [generate_sql_for_approval, ht] using hok
    | .ok s =>
        rw [storeOk, List.all_eq_true]
        intro e he
        rcases List.mem_append.mp (hins st q s Q now he) with hm | hm
        · exact List.all_eq_true.mp hok e hm
        · rw [List.mem_singleton.mp hm]
          simp
  · intro st qid ap r e he
    cases hl : st.pending_queries.lookup qid with
    | none =>
        rw [execute_approved_query] at he
        simp only [hl] at he
        exact he
    | some info =>
        by_cases hap : ap = false
        · simp only [execute_approved_query, hl, if_pos hap] at he
          exact mem_dictDelete he
        · cases r with
          | ok res =>
              simp only [execute_approved_query, hl, if_neg hap] at he
              exact mem_dictDelete he
          | error msg =>
              simp only [execute_approved_query, hl, if_neg hap] at he
              exact he

/-- Witness for C10 at concrete operations on the sample states. -/
theorem claim_C10_witness :
    storeOk sampleState.pending_queries = true ∧
      storeOk (generate_sql_for_approval sampleState "q" (.ok "SELECT 2")
        "q9" "t1").2.pending_queries = true ∧
      (generate_sql_for_approval sampleState "q" (.ok "SELECT 2")
          "q9" "t1").2.pending_queries ⊆
        sampleState.pending_queries ++
          [("q9", { question := "q", sql := "SELECT 2", status := "pending_approval",
                    generated_at := "t1" })] ∧
      (execute_approved_query sampleState "q1" true (.ok [])).2.1.pending_queries ⊆
        sampleState.pending_queries :=
  ⟨by decide,
    claim_C10_store_invariant.1 sampleState "q" (.ok "SELECT 2") "q9" "t1" (by decide),
    claim_C10_store_invariant.2.1 sampleState "q" "SELECT 2" "q9" "t1",
    claim_C10_store_invariant.2.2 sampleState "q1" true (.ok [])⟩

end RagSql
